import Mathlib

/-!
Verification of the jagawarung-backend ledger assistant: a shallow
embedding of its transaction service (list-query parsing, debt
accumulation, repayment, summary), its MCP protocol client's session
guard, and its AI intent parser, with theorems settling the spec's
claims about them.
-/

namespace JagaWarung

/-- The closed transaction-kind enum of `transaction.model.ts`
(`TRANSACTION_TYPES = ['spending', 'earning', 'debts']`). -/
inductive TransactionType where
  | spending
  | earning
  | debts
deriving DecidableEq, Repr

/-- Membership of a raw string in the closed kind enum
(`isTransactionType` of `transaction.model.ts`). -/
def isTransactionType (s : String) : Bool :=
  s = "spending" || s = "earning" || s = "debts"

/-- An application error as thrown by the services (`AppError` of
`middleware/errorHandler.ts`): a message and an HTTP status. -/
structure AppError where
  message : String
  status : Nat
deriving DecidableEq, Repr

/-- A JavaScript number that may be `NaN`: `none` stands for `NaN`.
Every amount or count the claims touch is an exact integer far below
2^53, where JavaScript number arithmetic coincides with integer
arithmetic. -/
abbrev JsNum := Option Int

/-- Whether a character is JavaScript whitespace (the forms that occur
in query strings). -/
def isWsChar (c : Char) : Bool :=
  c = ' ' || c = '\t' || c = '\n' || c = '\r'

/-- Characters with the leading whitespace removed. -/
def skipWs : List Char → List Char
  | [] => []
  | c :: rest => if isWsChar c then skipWs rest else c :: rest

/-- JavaScript `String.prototype.trim`: strip whitespace from both
ends. -/
def jsTrim (s : String) : String :=
  String.mk ((skipWs ((skipWs s.toList).reverse)).reverse)

/-- JavaScript `String.prototype.toLowerCase` (ASCII range, which
covers the kind names). -/
def jsToLower (s : String) : String :=
  String.mk (s.toList.map Char.toLower)

/-- Splitting on a comma, accumulating the current piece in reverse:
the helper of `jsSplitComma`. -/
def splitCommaAux : List Char → List Char → List String
  | [], acc => [String.mk acc.reverse]
  | c :: rest, acc =>
    if c = ',' then String.mk acc.reverse :: splitCommaAux rest []
    else splitCommaAux rest (c :: acc)

/-- JavaScript `s.split(',')`: the pieces between commas; the empty
string yields one empty piece. -/
def jsSplitComma (s : String) : List String :=
  splitCommaAux s.toList []

/-- The value of the maximal leading run of decimal digits, accumulated
left to right; stops at the first non-digit. -/
def digitsValue : List Char → Nat → Nat
  | [], acc => acc
  | c :: rest, acc =>
    if c.isDigit then digitsValue rest (acc * 10 + (c.toNat - 48)) else acc

/-- The maximal leading run of decimal digits as a number, or `none`
when the characters do not start with a digit. -/
def leadingNat : List Char → Option Nat
  | [] => none
  | c :: rest => if c.isDigit then some (digitsValue (c :: rest) 0) else none

/-- JavaScript `parseInt(s, 10)`: skip leading whitespace and an
optional sign, then read the maximal run of decimal digits; `NaN`
(`none`) when there is none.  Trailing characters are ignored, as in
JavaScript. -/
def jsParseInt (s : String) : JsNum :=
  match skipWs s.toList with
  | '-' :: rest => (leadingNat rest).map (fun n => -(n : Int))
  | '+' :: rest => (leadingNat rest).map (fun n => (n : Int))
  | cs => (leadingNat cs).map (fun n => (n : Int))

/-- JavaScript `Math.max(x, b)` where `x` may be `NaN`: `NaN`
propagates. -/
def jsMax (x : JsNum) (b : Int) : JsNum := x.map (fun v => max v b)

/-- JavaScript `Math.min(x, b)` where `x` may be `NaN`: `NaN`
propagates. -/
def jsMin (x : JsNum) (b : Int) : JsNum := x.map (fun v => min v b)

/-- JavaScript `v || d` on an optional string: `undefined` and the
empty string are falsy. -/
def jsOrDefault (v : Option String) (d : String) : String :=
  match v with
  | none => d
  | some s => if s = "" then d else s

/-- JavaScript `v || undefined` on an optional string. -/
def jsOrNone (v : Option String) : Option String :=
  match v with
  | none => none
  | some s => if s = "" then none else some s

/-- The raw query strings of a list request, `none` for an absent
parameter (`TransactionListQueryParams` of `transaction.model.ts`). -/
structure TransactionListQueryParams where
  page : Option String := none
  per_page : Option String := none
  order_by : Option String := none
  order_direction : Option String := none
  note : Option String := none
  type : Option String := none
  created_from : Option String := none
  created_to : Option String := none
deriving DecidableEq, Repr

/-- What `TransactionService.list` forwards to
`repository.listPaginated` (`TransactionFilterOptions` of
`transaction.model.ts`).  `page` and `perPage` are JavaScript numbers
and may be `NaN` (`none`). -/
structure TransactionFilterOptions where
  page : JsNum
  perPage : JsNum
  orderBy : String
  orderDirection : String
  note : Option String
  types : Option (List String)
  createdFrom : Option String
  createdTo : Option String
deriving DecidableEq, Repr

/-- The whitelist of sortable fields of `parseListQuery`. -/
def allowedOrderFields : List String := ["created_at", "updated_at", "nominal"]

/-- The allowed sort directions of `parseListQuery`. -/
def allowedOrderDirections : List String := ["asc", "desc"]

/-- The comma-separated kind filter exactly as `parseListQuery` splits
it: split the raw `type` parameter on commas, trim and lowercase each
member, and drop the empty ones. -/
def typeFilterList (q : TransactionListQueryParams) : List String :=
  ((jsSplitComma (jsOrDefault q.type "")).map (fun t => jsToLower (jsTrim t))).filter
    (fun t => t.length > 0)

/-- Validation of one optional date filter: `query.field ?
validateDate(query.field, name) : undefined` where `validateDate`
throws 400 unless `Date.parse` accepts the string.  `dateValid` stands
for the JavaScript `Date.parse` builtin (`true` = parses as a valid
timestamp). -/
def validateOptDate (dateValid : String → Bool) (v : Option String) (field : String) :
    Except AppError (Option String) :=
  match v with
  | none => .ok none
  | some s =>
    if s = "" then .ok none
    else if dateValid s then .ok (some s)
    else .error ⟨"Invalid " ++ field ++ " date. Use ISO format", 400⟩

/-- Translation of `TransactionService.parseListQuery`
(`ai.service.ts` lines 355-402): clamp the pagination numbers, validate
the order fields, the kind filter and the date range, and build the
filter options the repository receives.  `dateValid` stands for the
`Date.parse` builtin. -/
def parseListQuery (dateValid : String → Bool) (q : TransactionListQueryParams) :
    Except AppError TransactionFilterOptions :=
  let page := jsMax (jsParseInt (jsOrDefault q.page "1")) 1
  let perPageRaw := jsMin (jsMax (jsParseInt (jsOrDefault q.per_page "10")) 1) 100
  let orderByRaw := jsOrDefault q.order_by "created_at"
  let orderDirectionRaw := jsOrDefault q.order_direction "desc"
  if (allowedOrderFields.contains orderByRaw) = false then
    .error ⟨"Invalid order_by value. Allowed values: created_at, updated_at, nominal", 400⟩
  else if (allowedOrderDirections.contains orderDirectionRaw) = false then
    .error ⟨"Invalid order_direction value. Allowed values: asc, desc", 400⟩
  else
    let note := jsOrNone q.note
    let types := typeFilterList q
    let invalidTypes := types.filter (fun t => isTransactionType t = false)
    if types.length > 0 && invalidTypes.length > 0 then
      .error ⟨"Invalid type value. Allowed values: spending, earning, debts", 400⟩
    else do
      let createdFrom ← validateOptDate dateValid q.created_from "created_from"
      let createdTo ← validateOptDate dateValid q.created_to "created_to"
      return { page := page, perPage := perPageRaw, orderBy := orderByRaw,
               orderDirection := orderDirectionRaw, note := note,
               types := if types.isEmpty then none else some types,
               createdFrom := createdFrom, createdTo := createdTo }

/-- Decidable equality of `Except` results, so concrete runs of the
parsers can be checked by evaluation. -/
instance {ε α : Type} [DecidableEq ε] [DecidableEq α] : DecidableEq (Except ε α) :=
  fun a b =>
    match a, b with
    | .error x, .error y =>
      if h : x = y then isTrue (by rw [h])
      else isFalse (by intro hc; cases hc; exact h rfl)
    | .error _, .ok _ => isFalse (by intro hc; cases hc)
    | .ok _, .error _ => isFalse (by intro hc; cases hc)
    | .ok x, .ok y =>
      if h : x = y then isTrue (by rw [h])
      else isFalse (by intro hc; cases hc; exact h rfl)

/-- Translation of `TransactionService.list`: parse the query, then
call `repository.listPaginated` with the parsed filters.  The value is
the request issued to the store; `none` means the parse threw and the
store is never accessed. -/
def listRepoRequest (dateValid : String → Bool) (q : TransactionListQueryParams) :
    Option TransactionFilterOptions :=
  (parseListQuery dateValid q).toOption

/-- A ledger row of the `transactions` table (`Transaction` of
`transaction.model.ts`).  `invoice_data` is an opaque structured blob;
it is modelled as an optional string. -/
structure Transaction where
  id : String
  debtor_name : Option String
  note : Option String
  type : TransactionType
  nominal : Int
  invoice_data : Option String
  invoice_url : Option String
  created_at : String
  updated_at : String
deriving DecidableEq, Repr

/-- The creation payload (`CreateTransactionDTO` of
`transaction.model.ts`, snake-case variant used by the upsert-capable
service). -/
structure CreateTransactionDTO where
  debtor_name : Option String := none
  nominal : Int
  type : TransactionType
  invoice_url : Option String := none
  invoice_data : Option String := none
  note : Option String := none
deriving DecidableEq, Repr

/-- Options of `TransactionService.create`
(`CreateTransactionOptions`). -/
structure CreateTransactionOptions where
  upsert : Bool := false
deriving DecidableEq, Repr

/-- JavaScript truthiness of an optional string: `undefined`, `null`
and the empty string are falsy. -/
def strTruthy (v : Option String) : Bool :=
  match v with
  | none => false
  | some s => s != ""

/-- Lookup of a row by id (`repository.findById`). -/
def findById (store : List Transaction) (id : String) : Option Transaction :=
  store.find? (fun t => t.id == id)

/-- Modelled from the spec: `repository.findDebtByDebtorName` is
missing from the repository file of the sources (only the service, the
agent and the unit tests reference it).  Per the spec, the service
"look[s] up an existing debt entry for the same debtorName": the first
open debt row whose `debtor_name` matches. -/
def findDebtByDebtorName (store : List Transaction) (name : String) : Option Transaction :=
  store.find? (fun t => t.type == TransactionType.debts && t.debtor_name == some name)

/-- Replacement of the row with the given id, leaving the rest of the
store unchanged. -/
def updateRow (store : List Transaction) (id : String) (u : Transaction) :
    List Transaction :=
  store.map (fun t => if t.id == id then u else t)

/-- Modelled from the spec: `repository.accumulateDebt` is missing from
the repository file of the sources.  Per the spec it replaces the
existing entry's amount (the service passes the already-summed
`existing.amount + newAmount`) and overwrites its mutable fields (note,
attachment) from the new payload, "preserving its identity and creation
time". -/
def accumulateDebt (store : List Transaction) (id : String) (newNominal : Int)
    (payload : CreateTransactionDTO) (now : String) :
    Option Transaction × List Transaction :=
  match findById store id with
  | none => (none, store)
  | some t =>
    let u : Transaction :=
      { t with nominal := newNominal, note := payload.note,
               invoice_url := payload.invoice_url, invoice_data := payload.invoice_data,
               updated_at := now }
    (some u, updateRow store id u)

/-- Insertion of a fresh row built from the payload
(`repository.create` of `transaction.repository.ts`); the store
supplies the fresh id and the timestamps. -/
def insertRow (store : List Transaction) (payload : CreateTransactionDTO)
    (freshId now : String) : Transaction × List Transaction :=
  let t : Transaction :=
    { id := freshId, debtor_name := payload.debtor_name, note := payload.note,
      type := payload.type, nominal := payload.nominal,
      invoice_data := payload.invoice_data, invoice_url := payload.invoice_url,
      created_at := now, updated_at := now }
  (t, store ++ [t])

/-- Translation of `TransactionService.create(payload, options)` with
debt accumulation (part_002 of the sources, lines 60-85): when `upsert`
is set, the payload is a debt and it names a debtor, an existing open
debt for that debtor is accumulated into; otherwise a new row is
inserted. -/
def createTransaction (store : List Transaction) (payload : CreateTransactionDTO)
    (opts : CreateTransactionOptions) (freshId now : String) :
    Option Transaction × List Transaction :=
  if opts.upsert && payload.type == TransactionType.debts && strTruthy payload.debtor_name then
    match payload.debtor_name with
    | some name =>
      match findDebtByDebtorName store name with
      | some existingDebt =>
        accumulateDebt store existingDebt.id (existingDebt.nominal + payload.nominal)
          payload now
      | none =>
        let r := insertRow store payload freshId now
        (some r.1, r.2)
    | none =>
      let r := insertRow store payload freshId now
      (some r.1, r.2)
  else
    let r := insertRow store payload freshId now
    (some r.1, r.2)

/-- Modelled from the spec: the repay operation (`repayDebt`) has only
its unit tests and its agent caller under the sources.  Per the spec:
"if absent, fail NotFound; if found entry's kind ≠ debt, fail
InvalidState; if the entry has no debtor name, fail InvalidState; on
success, mutate kind → earning, clear debtorName, set note to a
synthesized repayment message, and persist — amount is left unchanged".
The messages and the synthesized note "Pembayaran Hutang <name>" match
the unit tests (`transaction.service.unit.test.ts` lines 1123-1235). -/
def repayDebt (store : List Transaction) (id : String) (now : String) :
    Except AppError Transaction × List Transaction :=
  match findById store id with
  | none => (.error ⟨"Transaction not found", 404⟩, store)
  | some t =>
    if t.type != TransactionType.debts then
      (.error ⟨"Transaction is not a debt", 400⟩, store)
    else
      match t.debtor_name with
      | none => (.error ⟨"Debt transaction has no debtor name", 400⟩, store)
      | some name =>
        if name == "" then
          (.error ⟨"Debt transaction has no debtor name", 400⟩, store)
        else
          let u : Transaction :=
            { t with type := TransactionType.earning, debtor_name := none,
                     note := some ("Pembayaran Hutang " ++ name), updated_at := now }
          (.ok u, updateRow store id u)

/-- One row of the summary query: the projection `type, nominal` the
repository returns for the bucket (`repository.getSummaryByRange`). -/
structure SummaryRow where
  type : TransactionType
  nominal : Int
deriving DecidableEq, Repr

/-- The three totals of `TransactionService.getSummary`
(`TransactionSummary` of `transaction.model.ts`). -/
structure TransactionSummary where
  total_debts : Int
  total_spending : Int
  total_earning : Int
deriving DecidableEq, Repr

/-- Translation of the aggregation loop of
`TransactionService.getSummary` (`transaction.service.ts` lines 56-70):
starting from zero totals, add each row's `nominal` to the total of its
kind. -/
def summarize (rows : List SummaryRow) : TransactionSummary :=
  rows.foldl
    (fun acc r =>
      match r.type with
      | .debts => { acc with total_debts := acc.total_debts + r.nominal }
      | .spending => { acc with total_spending := acc.total_spending + r.nominal }
      | .earning => { acc with total_earning := acc.total_earning + r.nominal })
    ⟨0, 0, 0⟩

/-- The amounts of the rows of one kind, summed: the specification's
"sum amounts grouped by kind". -/
def totalOf (k : TransactionType) (rows : List SummaryRow) : Int :=
  ((rows.filter (fun r => r.type == k)).map (fun r => r.nominal)).sum

/-- The module-level mutable state of `mcp.service.ts`: the cached
session token (`activeSessionId`), the in-flight initialization promise
slot (`sessionInitPromise`, identified here by a promise id), plus two
ghost fields for reasoning: how many `initialize` requests were sent
and a counter supplying fresh promise ids. -/
structure McpState where
  activeSessionId : Option String
  pendingInit : Option Nat
  initCount : Nat
  nextPromiseId : Nat
deriving DecidableEq, Repr

/-- The state before any session exists: both slots empty, nothing
sent. -/
def initialMcpState : McpState :=
  { activeSessionId := none, pendingInit := none, initCount := 0, nextPromiseId := 0 }

/-- What one caller of `ensureSession` observes synchronously: either
the cached token, or the promise it must await. -/
inductive EnsureOutcome where
  | cached (token : String)
  | awaiting (pid : Nat)
deriving DecidableEq, Repr

/-- Translation of the synchronous body of `ensureSession`
(`mcp.service.ts` lines 156-168).  The body contains no `await` before
it returns, so on the single-threaded event loop each invocation runs
atomically: return the cached token if present; otherwise install the
in-flight promise (sending one `initialize` request) when the slot is
empty, or join the promise already in flight. -/
def ensureSessionStep (s : McpState) : McpState × EnsureOutcome :=
  match s.activeSessionId with
  | some t => (s, .cached t)
  | none =>
    match s.pendingInit with
    | some pid => (s, .awaiting pid)
    | none =>
      let pid := s.nextPromiseId
      ({ s with pendingInit := some pid, initCount := s.initCount + 1,
                nextPromiseId := pid + 1 },
       .awaiting pid)

/-- N concurrent callers reaching `ensureSession` before any session
exists: the event loop runs their synchronous bodies one after another.
Returns the final state and each caller's observation, first caller
first. -/
def runEnsureCallers : Nat → McpState → McpState × List EnsureOutcome
  | 0, s => (s, [])
  | n + 1, s =>
    let step := ensureSessionStep s
    let rest := runEnsureCallers n step.1
    (rest.1, step.2 :: rest.2)

/-- Resolution of the in-flight `initialize` promise with a session
token: `initSession` stores the token in `activeSessionId` before
resolving, and the `.finally` handler installed by `ensureSession`
clears the promise slot — on success as well as on failure. -/
def resolveInitSuccess (s : McpState) (token : String) : McpState :=
  { s with activeSessionId := some token, pendingInit := none }

/-- Rejection of the in-flight `initialize` promise: `activeSessionId`
is left untouched and the `.finally` handler clears the promise slot,
so a later call may retry. -/
def resolveInitFailure (s : McpState) : McpState :=
  { s with pendingInit := none }

/-- The token a caller ends up holding once the promise `pid` has
resolved successfully with `token`: a caller that saw the cached token
keeps it; a caller awaiting the resolved promise receives its value. -/
def callerToken (resolvedPid : Nat) (token : String) : EnsureOutcome → Option String
  | .cached t => some t
  | .awaiting pid => if pid = resolvedPid then some token else none

/-- A JSON value, as `JSON.parse` produces it.  Numbers are modelled as
integers: no claim depends on fractional values.  A JavaScript array is
an ordinary extensible object, so besides its elements it can carry
named properties created by later assignment; `JSON.parse` itself
always yields an array with `props = []`. -/
inductive Json where
  | null
  | bool (b : Bool)
  | num (n : Int)
  | str (s : String)
  | arr (elems : List Json) (props : List (String × Json))
  | obj (fields : List (String × Json))

/-- Lookup of a named property: on an object its fields, on an array
its expando properties. -/
def Json.getField : Json → String → Option Json
  | .obj fields, k => (fields.find? (fun p => p.1 == k)).map (fun p => p.2)
  | .arr _ props, k => (props.find? (fun p => p.1 == k)).map (fun p => p.2)
  | _, _ => none

/-- Assignment `j[k] = v` on a JSON value: on an object it overwrites
the property or appends it; on an array it does the same to the
array's named properties, since JavaScript arrays are extensible
objects and property creation on them succeeds even in strict mode; on
`null` or a primitive the strict-mode assignment throws, modelled as
`none`. -/
def Json.setField : Json → String → Json → Option Json
  | .obj fields, k, v =>
    if fields.any (fun p => p.1 == k) then
      some (.obj (fields.map (fun p => if p.1 == k then (k, v) else p)))
    else
      some (.obj (fields ++ [(k, v)]))
  | .arr elems props, k, v =>
    if props.any (fun p => p.1 == k) then
      some (.arr elems (props.map (fun p => if p.1 == k then (k, v) else p)))
    else
      some (.arr elems (props ++ [(k, v)]))
  | _, _, _ => none

/-- The content the completion provider hands back for one call:
either no content at all, content that is not valid JSON (so
`JSON.parse` throws), or content parsed to a JSON value. -/
inductive AIContent where
  | noContent
  | malformed
  | parsed (j : Json)

/-- Translation of the tail of `AIService.parseDebtPrompt`
(`ai.service.ts` lines 53-64): throw on empty content, `JSON.parse`
the content (throwing on malformed JSON, and on the strict-mode
property assignment when the value is `null` or a primitive),
overwrite `original_prompt` with the user prompt, and return the
object or array — without any client-side schema validation. -/
def parseDebtPrompt (userPrompt : String) (content : AIContent) : Except String Json :=
  match content with
  | .noContent => .error "AI returned empty response"
  | .malformed => .error "Unexpected end of JSON input"
  | .parsed j =>
    match j.setField "original_prompt" (.str userPrompt) with
    | some j2 => .ok j2
    | none => .error "TypeError: cannot create property on primitive value"

/-- The closed action enum of `DEBT_PARSER_RESPONSE_SCHEMA`
(`debt-parser.prompt.ts` lines 128-131). -/
def debtActionEnum : List String :=
  ["repay_debt", "get_debt", "upsert_debt", "insert_spending", "insert_earning"]

/-- Whether one property of a JSON object satisfies
`DEBT_PARSER_RESPONSE_SCHEMA`: the right type per field, the action
inside the closed enum, and no property outside the four named ones
(`additionalProperties: false`). -/
def debtSchemaField : String × Json → Bool
  | ("original_prompt", .str _) => true
  | ("action", .str a) => debtActionEnum.contains a
  | ("debtor_name", .str _) => true
  | ("nominal", .num _) => true
  | _ => false

/-- Validation of a parsed provider payload against
`DEBT_PARSER_RESPONSE_SCHEMA` (`debt-parser.prompt.ts` lines 121-144):
an object whose every property is one of the four named ones with the
right type, and which carries all four required properties. -/
def validatesDebtSchema : Json → Bool
  | .obj fields =>
    fields.all debtSchemaField &&
      ["original_prompt", "action", "debtor_name", "nominal"].all
        (fun k => fields.any (fun p => p.1 == k))
  | _ => false

/-- A `Date.parse` oracle accepting every string; the concrete queries
below carry no date filters, so it is never consulted on them. -/
def dvTrue : String → Bool := fun _ => true

/-- The filters forwarded for the query `per_page=0`. -/
def fPP0 : TransactionFilterOptions :=
  { page := some 1, perPage := some 1, orderBy := "created_at",
    orderDirection := "desc", note := none, types := none,
    createdFrom := none, createdTo := none }

/-- The filters forwarded for the query `per_page=500`. -/
def fPP500 : TransactionFilterOptions :=
  { page := some 1, perPage := some 100, orderBy := "created_at",
    orderDirection := "desc", note := none, types := none,
    createdFrom := none, createdTo := none }

/-- The filters forwarded for the query `page=0`. -/
def fP0 : TransactionFilterOptions :=
  { page := some 1, perPage := some 10, orderBy := "created_at",
    orderDirection := "desc", note := none, types := none,
    createdFrom := none, createdTo := none }

/-- The filters forwarded for the query `page=abc&per_page=xyz`: both
pagination numbers are `NaN`. -/
def fNanBoth : TransactionFilterOptions :=
  { page := none, perPage := none, orderBy := "created_at",
    orderDirection := "desc", note := none, types := none,
    createdFrom := none, createdTo := none }

/-- The state after the first caller of `ensureSession` has run from
the empty state: one `initialize` request sent, promise 0 in flight. -/
def mcpAfterFirst : McpState :=
  { activeSessionId := none, pendingInit := some 0, initCount := 1, nextPromiseId := 1 }

/-- A concrete provider payload: schema-conformant extraction of the
prompt about Budi. -/
def aiRespBudi : Json :=
  .obj [("original_prompt", .str "x"), ("action", .str "upsert_debt"),
        ("debtor_name", .str "Budi"), ("nominal", .num 50000)]

/-- The intent `parseDebtPrompt` returns for `aiRespBudi` and the
prompt about Budi: the same object with `original_prompt`
overwritten. -/
def aiRespBudiOut : Json :=
  .obj [("original_prompt", .str "Budi hutang 50000"), ("action", .str "upsert_debt"),
        ("debtor_name", .str "Budi"), ("nominal", .num 50000)]

/-- The debt payload of the spec's accumulation law: Budi owes
50000. -/
def budiPayload : CreateTransactionDTO :=
  { debtor_name := some "Budi", nominal := 50000, type := .debts,
    note := some "Budi hutang 50000" }

/-- The row the first `create` of `budiPayload` inserts into the empty
store. -/
def budiFirst : Transaction :=
  { id := "id-1", debtor_name := some "Budi", note := some "Budi hutang 50000",
    type := .debts, nominal := 50000, invoice_data := none, invoice_url := none,
    created_at := "t1", updated_at := "t1" }

/-- The single row left after the second `create` of `budiPayload`
accumulated into the first: same identity and creation time, amount
100000. -/
def budiMerged : Transaction :=
  { id := "id-1", debtor_name := some "Budi", note := some "Budi hutang 50000",
    type := .debts, nominal := 100000, invoice_data := none, invoice_url := none,
    created_at := "t1", updated_at := "t2" }

/-- A concrete ledger for the repay cases: one open debt, one spending
row, and one malformed debt row without a debtor name. -/
def debtRow : Transaction :=
  { id := "debt-1", debtor_name := some "John Doe", note := some "Initial debt",
    type := .debts, nominal := 100000, invoice_data := none, invoice_url := none,
    created_at := "c1", updated_at := "c1" }

/-- The spending row of the concrete repay ledger. -/
def spendRow : Transaction :=
  { id := "sp-1", debtor_name := none, note := some "Groceries",
    type := .spending, nominal := 5000, invoice_data := none, invoice_url := none,
    created_at := "c2", updated_at := "c2" }

/-- The malformed debt row of the concrete repay ledger: kind debt but
no debtor name. -/
def noNameRow : Transaction :=
  { id := "nn-1", debtor_name := none, note := none,
    type := .debts, nominal := 7000, invoice_data := none, invoice_url := none,
    created_at := "c3", updated_at := "c3" }

/-- The concrete repay ledger. -/
def repayStore : List Transaction := [debtRow, spendRow, noNameRow]

/-- The summary totals once each kind's sum is isolated: folding rows
into the accumulator adds, per kind, exactly the sum of that kind's
amounts. -/
theorem summarize_foldl (rows : List SummaryRow) (acc : TransactionSummary) :
    rows.foldl
      (fun acc r =>
        match r.type with
        | .debts => { acc with total_debts := acc.total_debts + r.nominal }
        | .spending => { acc with total_spending := acc.total_spending + r.nominal }
        | .earning => { acc with total_earning := acc.total_earning + r.nominal })
      acc =
    ⟨acc.total_debts + totalOf .debts rows,
     acc.total_spending + totalOf .spending rows,
     acc.total_earning + totalOf .earning rows⟩ := by
  induction rows generalizing acc with
  | nil => simp [totalOf]
  | cons r rest ih =>
    obtain ⟨rt, rn⟩ := r
    cases rt <;>
      simp [List.foldl_cons, ih, totalOf, List.filter_cons, TransactionSummary.mk.injEq] <;>
      omega

/-- C7: for every list of rows returned for the queried bucket,
`getSummary` returns the three totals obtained by summing amounts
grouped by kind, each absent kind defaulting to 0; in particular on the
rows (debts 100000), (spending 50000), (spending 30000),
(earning 100000) it returns total debts 100000, total spending 80000,
total earning 100000. -/
theorem getSummary_grouped_totals :
    (∀ rows : List SummaryRow,
       summarize rows =
         ⟨totalOf .debts rows, totalOf .spending rows, totalOf .earning rows⟩) ∧
    summarize [⟨.debts, 100000⟩, ⟨.spending, 50000⟩, ⟨.spending, 30000⟩, ⟨.earning, 100000⟩] =
      ⟨100000, 80000, 100000⟩ := by
  constructor
  · intro rows
    rw [summarize, summarize_foldl]
    simp
  · decide

/-- The fields a successful `parseListQuery` forwards: the clamped
pagination numbers are exactly the `Math.min`/`Math.max` images of the
parsed raw parameters, and every member of an accepted kind filter is a
valid kind. -/
theorem parseListQuery_ok_fields (dv : String → Bool) (q : TransactionListQueryParams)
    (f : TransactionFilterOptions) (hf : parseListQuery dv q = .ok f) :
    f.page = jsMax (jsParseInt (jsOrDefault q.page "1")) 1 ∧
    f.perPage = jsMin (jsMax (jsParseInt (jsOrDefault q.per_page "10")) 1) 100 ∧
    (∀ t ∈ typeFilterList q, isTransactionType t = true) := by
  simp only [parseListQuery] at hf
  split at hf
  · exact absurd hf (by simp)
  split at hf
  · exact absurd hf (by simp)
  split at hf
  · exact absurd hf (by simp)
  next hty =>
  cases h1 : validateOptDate dv q.created_from "created_from" with
  | error e => rw [h1] at hf; exact absurd hf (by simp [Bind.bind, Except.bind])
  | ok c1 =>
    cases h2 : validateOptDate dv q.created_to "created_to" with
    | error e => rw [h1, h2] at hf; exact absurd hf (by simp [Bind.bind, Except.bind])
    | ok c2 =>
      rw [h1, h2] at hf
      simp only [Bind.bind, Except.bind, pure, Except.pure, Except.ok.injEq] at hf
      subst hf
      refine ⟨rfl, rfl, ?_⟩
      intro t ht
      by_contra hbad
      simp only [Bool.not_eq_true] at hbad
      have hlen : (typeFilterList q).length > 0 := List.length_pos.mpr (by
        intro hnil; rw [hnil] at ht; exact absurd ht (List.not_mem_nil t))
      have hmem : t ∈ (typeFilterList q).filter (fun t => isTransactionType t = false) := by
        simp [List.mem_filter, ht, hbad]
      have hinv : ((typeFilterList q).filter (fun t => isTransactionType t = false)).length > 0 :=
        List.length_pos.mpr (by intro hnil; rw [hnil] at hmem; exact absurd hmem (List.not_mem_nil t))
      apply hty
      rw [Bool.and_eq_true]
      exact ⟨decide_eq_true hlen, decide_eq_true hinv⟩

/-- C6: a list request whose kind filter contains a member outside the
closed kind enum is rejected with a validation error before any store
access (no repository request is issued), and a comma-separated filter
is accepted only when every member is a valid kind. -/
theorem listQuery_kind_filter_validation (dv : String → Bool)
    (q : TransactionListQueryParams) :
    ((∃ t ∈ typeFilterList q, isTransactionType t = false) →
       listRepoRequest dv q = none) ∧
    (∀ f, parseListQuery dv q = .ok f →
       ∀ t ∈ typeFilterList q, isTransactionType t = true) := by
  constructor
  · rintro ⟨t, ht, hbad⟩
    rw [listRepoRequest]
    cases hp : parseListQuery dv q with
    | error e => rfl
    | ok f =>
      have hall := (parseListQuery_ok_fields dv q f hp).2.2 t ht
      rw [hall] at hbad
      cases hbad
  · intro f hf
    exact (parseListQuery_ok_fields dv q f hf).2.2

/-- C5 counterexample: the list request `per_page=abc` is accepted and
forwarded with `perPage = NaN` (`none`), which is not a value clamped
into the range 1..100 — so it is not true of every list request that
the effective `perPage` is clamped into that range. -/
theorem pagination_clamp_cex :
    listRepoRequest dvTrue { per_page := some "abc" } =
      some { page := some 1, perPage := none, orderBy := "created_at",
             orderDirection := "desc", note := none, types := none,
             createdFrom := none, createdTo := none } ∧
    ¬ ∃ m : Int, (none : JsNum) = some m ∧ 1 ≤ m ∧ m ≤ 100 := by
  constructor
  · decide
  · rintro ⟨m, hm, -⟩
    cases hm

/-- C5 (amended): for every list request whose `page` and `per_page`
parameters parse to numbers (in particular when absent), the effective
page is `max(parsed, 1) ≥ 1` and the effective `perPage` is
`min(max(parsed, 1), 100)`, which lies in 1..100; so `per_page=0`
clamps to 1, `per_page=500` clamps to 100 and `page=0` clamps to 1. -/
theorem pagination_clamp (dv : String → Bool) (q : TransactionListQueryParams)
    (f : TransactionFilterOptions) (n m : Int)
    (hf : parseListQuery dv q = .ok f)
    (hn : jsParseInt (jsOrDefault q.page "1") = some n)
    (hm : jsParseInt (jsOrDefault q.per_page "10") = some m) :
    f.page = some (max n 1) ∧ f.perPage = some (min (max m 1) 100) ∧
    1 ≤ max n 1 ∧ 1 ≤ min (max m 1) 100 ∧ min (max m 1) 100 ≤ 100 := by
  obtain ⟨h1, h2, -⟩ := parseListQuery_ok_fields dv q f hf
  rw [hn] at h1
  rw [hm] at h2
  refine ⟨h1, h2, le_max_right n 1, le_min (le_max_right m 1) (by norm_num),
    min_le_right _ _⟩

/-- Witness for C5 (amended): the concrete clamps of the spec, obtained
from `pagination_clamp` at the queries `per_page=0`, `per_page=500` and
`page=0`. -/
theorem pagination_clamp_witness :
    (parseListQuery dvTrue { per_page := some "0" } = .ok fPP0 ∧ fPP0.perPage = some 1) ∧
    (parseListQuery dvTrue { per_page := some "500" } = .ok fPP500 ∧
      fPP500.perPage = some 100) ∧
    (parseListQuery dvTrue { page := some "0" } = .ok fP0 ∧ fP0.page = some 1) := by
  refine ⟨⟨by decide, ?_⟩, ⟨by decide, ?_⟩, ⟨by decide, ?_⟩⟩
  · have h := (pagination_clamp dvTrue { per_page := some "0" } fPP0 1 0 (by decide)
      (by decide) (by decide)).2.1
    simpa using h
  · have h := (pagination_clamp dvTrue { per_page := some "500" } fPP500 1 500 (by decide)
      (by decide) (by decide)).2.1
    simpa using h
  · have h := (pagination_clamp dvTrue { page := some "0" } fP0 0 10 (by decide)
      (by decide) (by decide)).1
    simpa using h

/-- C10: when the `page` or `per_page` query parameter is present but
non-numeric, `parseInt` yields `NaN`, the `Math.min`/`Math.max` clamps
propagate it, and the request is forwarded to the repository with that
pagination field equal to `NaN` instead of being rejected or defaulted. -/
theorem pagination_nan_forwarded (dv : String → Bool) (q : TransactionListQueryParams)
    (f : TransactionFilterOptions) (hf : parseListQuery dv q = .ok f) :
    listRepoRequest dv q = some f ∧
    (∀ s, q.page = some s → s ≠ "" → jsParseInt s = none → f.page = none) ∧
    (∀ s, q.per_page = some s → s ≠ "" → jsParseInt s = none → f.perPage = none) := by
  obtain ⟨h1, h2, -⟩ := parseListQuery_ok_fields dv q f hf
  refine ⟨by rw [listRepoRequest, hf]; rfl, ?_, ?_⟩
  · intro s hs hne hnan
    rw [h1, hs]
    simp [jsOrDefault, hne, hnan, jsMax]
  · intro s hs hne hnan
    rw [h2, hs]
    simp [jsOrDefault, hne, hnan, jsMax, jsMin]

/-- Witness for C10: the request `page=abc&per_page=xyz` is accepted
and forwarded with both pagination fields `NaN`. -/
theorem pagination_nan_forwarded_witness :
    parseListQuery dvTrue { page := some "abc", per_page := some "xyz" } = .ok fNanBoth ∧
    fNanBoth.page = none ∧ fNanBoth.perPage = none := by
  have h := pagination_nan_forwarded dvTrue
    { page := some "abc", per_page := some "xyz" } fNanBoth (by decide)
  exact ⟨by decide, h.2.1 "abc" rfl (by decide) (by decide),
    h.2.2 "xyz" rfl (by decide) (by decide)⟩

/-- Finding the overwritten key after `setField` rewrote it in place:
when some property matched the key, the first match of the mapped list
is the new pair. -/
theorem find_map_overwrite (k : String) (v : Json) :
    ∀ fields : List (String × Json), fields.any (fun q => q.1 == k) = true →
      (fields.map (fun q => if q.1 == k then (k, v) else q)).find?
        (fun q => q.1 == k) = some (k, v) := by
  intro fields
  induction fields with
  | nil => intro h; cases h
  | cons q rest ih =>
    intro h
    by_cases hq : (q.1 == k) = true
    · rw [List.map_cons, if_pos hq, List.find?_cons]
      simp
    · simp only [List.any_cons, Bool.or_eq_true] at h
      rcases h with h | h
      · exact absurd h hq
      · have hqf : (q.1 == k) = false := by
          cases hE : q.1 == k
          · rfl
          · exact absurd hE hq
        rw [List.map_cons, if_neg hq, List.find?_cons, hqf]
        exact ih h

/-- Finding the appended key after `setField` added it: when no
property matched the key, the first match of the extended list is the
appended pair. -/
theorem find_append_new (k : String) (v : Json) :
    ∀ fields : List (String × Json), fields.any (fun q => q.1 == k) = false →
      (fields ++ [(k, v)]).find? (fun q => q.1 == k) = some (k, v) := by
  intro fields
  induction fields with
  | nil =>
    intro _
    rw [List.nil_append, List.find?_cons]
    simp
  | cons q rest ih =>
    intro h
    simp only [List.any_cons, Bool.or_eq_false_iff] at h
    rw [List.cons_append, List.find?_cons, h.1]
    exact ih h.2

/-- Reading back the property `setField` wrote: object assignment
followed by a read of the same key yields the assigned value. -/
theorem getField_setField (fields : List (String × Json)) (k : String) (v j2 : Json)
    (h : (Json.obj fields).setField k v = some j2) :
    j2.getField k = some v := by
  simp only [Json.setField] at h
  by_cases hany : (fields.any (fun q => q.1 == k)) = true
  · rw [if_pos hany] at h
    injection h with h
    subst h
    simp only [Json.getField]
    rw [find_map_overwrite k v fields hany]
    rfl
  · have hf : fields.any (fun q => q.1 == k) = false := by
      cases hE : fields.any (fun q => q.1 == k)
      · rfl
      · exact absurd hE hany
    rw [if_neg hany] at h
    injection h with h
    subst h
    simp only [Json.getField]
    rw [find_append_new k v fields hf]
    rfl

/-- Reading back the property `setField` wrote on an array: arrays are
extensible objects, so assignment succeeds on them and a read of the
same key yields the assigned value. -/
theorem getField_setField_arr (elems : List Json) (props : List (String × Json))
    (k : String) (v j2 : Json)
    (h : (Json.arr elems props).setField k v = some j2) :
    j2.getField k = some v := by
  simp only [Json.setField] at h
  by_cases hany : (props.any (fun q => q.1 == k)) = true
  · rw [if_pos hany] at h
    injection h with h
    subst h
    simp only [Json.getField]
    rw [find_map_overwrite k v props hany]
    rfl
  · have hf : props.any (fun q => q.1 == k) = false := by
      cases hE : props.any (fun q => q.1 == k)
      · rfl
      · exact absurd hE hany
    rw [if_neg hany] at h
    injection h with h
    subst h
    simp only [Json.getField]
    rw [find_append_new k v props hf]
    rfl

/-- C8: whenever `parseDebtPrompt` returns an intent, its
`original_prompt` field is exactly the input prompt, whatever the
provider returned in that field — the code overwrites it with
`parsed.original_prompt = userPrompt`. -/
theorem parseDebtPrompt_echo (p : String) (c : AIContent) (j : Json)
    (h : parseDebtPrompt p c = .ok j) :
    j.getField "original_prompt" = some (.str p) := by
  cases c with
  | noContent => simp [parseDebtPrompt] at h
  | malformed => simp [parseDebtPrompt] at h
  | parsed j0 =>
    simp only [parseDebtPrompt] at h
    cases hs : j0.setField "original_prompt" (.str p) with
    | none => rw [hs] at h; simp at h
    | some j2 =>
      rw [hs] at h
      simp only [Except.ok.injEq] at h
      subst h
      cases j0 with
      | obj fields => exact getField_setField fields "original_prompt" (.str p) j2 hs
      | arr elems props =>
        exact getField_setField_arr elems props "original_prompt" (.str p) j2 hs
      | null => simp [Json.setField] at hs
      | bool b => simp [Json.setField] at hs
      | num n => simp [Json.setField] at hs
      | str s => simp [Json.setField] at hs

/-- Witness for C8: on the prompt about Budi and a provider payload
whose echoed prompt differs, the returned intent carries the input
prompt verbatim. -/
theorem parseDebtPrompt_echo_witness :
    parseDebtPrompt "Budi hutang 50000" (.parsed aiRespBudi) = .ok aiRespBudiOut ∧
    aiRespBudiOut.getField "original_prompt" = some (.str "Budi hutang 50000") := by
  constructor
  · rfl
  · exact parseDebtPrompt_echo "Budi hutang 50000" (.parsed aiRespBudi) aiRespBudiOut rfl

/-- C9 counterexample: the empty JSON object fails the extraction
schema (all four required properties are missing), yet the parser
returns it as an intent (with `original_prompt` injected) instead of
raising a parse error — the code never validates the provider content
against the schema on the client side. -/
theorem parseDebtPrompt_schema_cex :
    validatesDebtSchema (Json.obj []) = false ∧
    parseDebtPrompt "halo" (.parsed (Json.obj [])) =
      .ok (.obj [("original_prompt", .str "halo")]) := by
  constructor
  · rfl
  · rfl

/-- C9 (amended): the parser raises a fatal error to its caller, with
no retry, exactly when the provider returns no content, content that is
not valid JSON, or a JSON value that is `null` or a primitive (the
strict-mode property assignment then throws); any JSON object or array
— whether or not it validates against the extraction schema — is
returned as the intent, schema conformance being delegated to the
provider's strict structured output. -/
theorem parseDebtPrompt_error_modes (p : String) (c : AIContent) :
    (∃ j, parseDebtPrompt p c = .ok j) ↔
      (∃ fields, c = .parsed (.obj fields)) ∨
      (∃ elems props, c = .parsed (.arr elems props)) := by
  constructor
  · rintro ⟨j, hj⟩
    cases c with
    | noContent => simp [parseDebtPrompt] at hj
    | malformed => simp [parseDebtPrompt] at hj
    | parsed j0 =>
      cases j0 with
      | obj fields => exact Or.inl ⟨fields, rfl⟩
      | arr elems props => exact Or.inr ⟨elems, props, rfl⟩
      | null => simp [parseDebtPrompt, Json.setField] at hj
      | bool b => simp [parseDebtPrompt, Json.setField] at hj
      | num n => simp [parseDebtPrompt, Json.setField] at hj
      | str s => simp [parseDebtPrompt, Json.setField] at hj
  · rintro (⟨fields, rfl⟩ | ⟨elems, props, rfl⟩)
    · by_cases hany : (fields.any (fun q => q.1 == "original_prompt")) = true
      · refine ⟨Json.obj (fields.map
          (fun r => if r.1 == "original_prompt" then ("original_prompt", Json.str p) else r)), ?_⟩
        simp [parseDebtPrompt, Json.setField, hany]
      · refine ⟨Json.obj (fields ++ [("original_prompt", Json.str p)]), ?_⟩
        simp [parseDebtPrompt, Json.setField, hany]
    · by_cases hany : (props.any (fun q => q.1 == "original_prompt")) = true
      · refine ⟨Json.arr elems (props.map
          (fun r => if r.1 == "original_prompt" then ("original_prompt", Json.str p) else r)), ?_⟩
        simp [parseDebtPrompt, Json.setField, hany]
      · refine ⟨Json.arr elems (props ++ [("original_prompt", Json.str p)]), ?_⟩
        simp [parseDebtPrompt, Json.setField, hany]

/-- Callers that find a session-less state with a promise already in
flight all join that promise and leave the state unchanged. -/
theorem runEnsureCallers_pending (pid : Nat) (m : Nat) (s : McpState)
    (h1 : s.activeSessionId = none) (h2 : s.pendingInit = some pid) :
    runEnsureCallers m s = (s, List.replicate m (.awaiting pid)) := by
  have hstep : ensureSessionStep s = (s, .awaiting pid) := by
    simp [ensureSessionStep, h1, h2]
  induction m with
  | zero => simp [runEnsureCallers]
  | succ n ih =>
    simp [runEnsureCallers, hstep, ih, List.replicate]

/-- C3: N concurrent protocol calls arriving before any session exists
send exactly one `initialize` request; every caller awaits that single
promise, and once it resolves successfully with a token, the token is
cached and every caller proceeds holding that same token (which
`callMcp` then attaches to its subsequent request). -/
theorem session_init_dedup (n : Nat) (hn : 1 ≤ n) (t : String) :
    (runEnsureCallers n initialMcpState).1.initCount = 1 ∧
    (runEnsureCallers n initialMcpState).2.length = n ∧
    (∀ o ∈ (runEnsureCallers n initialMcpState).2, o = .awaiting 0) ∧
    (resolveInitSuccess (runEnsureCallers n initialMcpState).1 t).activeSessionId = some t ∧
    (∀ o ∈ (runEnsureCallers n initialMcpState).2, callerToken 0 t o = some t) := by
  obtain ⟨k, rfl⟩ : ∃ k, n = k + 1 := ⟨n - 1, (Nat.succ_pred_eq_of_pos hn).symm⟩
  have hstep : ensureSessionStep initialMcpState = (mcpAfterFirst, .awaiting 0) := rfl
  have hrest := runEnsureCallers_pending 0 k mcpAfterFirst rfl rfl
  have hall : runEnsureCallers (k + 1) initialMcpState =
      (mcpAfterFirst, .awaiting 0 :: List.replicate k (.awaiting 0)) := by
    simp [runEnsureCallers, hstep, hrest]
  rw [hall]
  refine ⟨rfl, by simp, ?_, rfl, ?_⟩
  · intro o ho
    rcases List.mem_cons.mp ho with h | h
    · exact h
    · exact List.eq_of_mem_replicate h
  · intro o ho
    have : o = .awaiting 0 := by
      rcases List.mem_cons.mp ho with h | h
      · exact h
      · exact List.eq_of_mem_replicate h
    rw [this]
    simp [callerToken]

/-- Witness for C3: three concurrent callers send one `initialize`, and
each of them ends up holding the token it resolved with. -/
theorem session_init_dedup_witness :
    (runEnsureCallers 3 initialMcpState).1.initCount = 1 ∧
    (resolveInitSuccess (runEnsureCallers 3 initialMcpState).1 "sess-1").activeSessionId =
      some "sess-1" ∧
    callerToken 0 "sess-1" (.awaiting 0) = some "sess-1" := by
  have h := session_init_dedup 3 (by norm_num) "sess-1"
  exact ⟨h.1, h.2.2.2.1, h.2.2.2.2 (.awaiting 0) (by decide)⟩

/-- C4 counterexample: run one caller from the empty state so the
in-flight slot is occupied, then resolve the initialization
successfully — the slot is cleared (`.finally` runs on success too),
not retained as the claim states. -/
theorem initSlot_success_cex :
    (runEnsureCallers 1 initialMcpState).1.pendingInit = some 0 ∧
    (resolveInitSuccess (runEnsureCallers 1 initialMcpState).1 "sess-1").pendingInit =
      none := by
  constructor
  · rfl
  · rfl

/-- C4 (amended): when the pending initialization future resolves, the
in-flight slot is cleared on failure and on success alike (a `finally`
hook); on success the token has already been cached in the session
slot, so a later call is answered from the cache without a new
`initialize`, while after a failure (no token cached) a later call
sends a fresh `initialize` — so retry remains possible. -/
theorem initSlot_cleared_both_ways (s : McpState) (t : String) :
    (resolveInitSuccess s t).pendingInit = none ∧
    (resolveInitFailure s).pendingInit = none ∧
    (resolveInitSuccess s t).activeSessionId = some t ∧
    (resolveInitFailure s).activeSessionId = s.activeSessionId ∧
    (ensureSessionStep (resolveInitSuccess s t)).2 = .cached t ∧
    (ensureSessionStep (resolveInitSuccess s t)).1.initCount = s.initCount ∧
    (s.activeSessionId = none →
      (ensureSessionStep (resolveInitFailure s)).1.initCount = s.initCount + 1) := by
  refine ⟨rfl, rfl, rfl, rfl, rfl, rfl, ?_⟩
  intro h
  simp [ensureSessionStep, resolveInitFailure, h]

/-- Lookup by id finds exactly the member row when row ids are
pairwise distinct. -/
theorem findById_mem_unique (store : List Transaction) (ex : Transaction)
    (hmem : ex ∈ store) (hnodup : (store.map Transaction.id).Nodup) :
    findById store ex.id = some ex := by
  cases hfb : findById store ex.id with
  | none =>
    rw [findById, List.find?_eq_none] at hfb
    exact absurd (by simp) (hfb ex hmem)
  | some y =>
    rw [findById] at hfb
    have hy := List.find?_some hfb
    have hymem : y ∈ store := List.mem_of_find?_eq_some hfb
    have : y = ex :=
      List.inj_on_of_nodup_map hnodup hymem hmem (by simpa using hy)
    rw [this]

/-- C1: a `create` call with `upsert=true`, kind debt and a non-empty
debtor name accumulates into an existing open debt for that debtor —
no insert happens, the returned entry keeps the existing id and
creation time and carries the summed amount — and inserts a new row
only when no such debt exists; concretely, creating the Budi debt of
50000 twice from the empty store leaves one entry of amount 100000,
not two entries. -/
theorem create_upsert_accumulates (store : List Transaction)
    (payload : CreateTransactionDTO) (freshId now name : String)
    (htype : payload.type = .debts)
    (hname : payload.debtor_name = some name)
    (hne : name ≠ "") :
    (∀ ex, findDebtByDebtorName store name = some ex →
       (store.map Transaction.id).Nodup →
       ∃ u, createTransaction store payload ⟨true⟩ freshId now =
           (some u, updateRow store ex.id u) ∧
         u.id = ex.id ∧ u.created_at = ex.created_at ∧
         u.nominal = ex.nominal + payload.nominal ∧
         (updateRow store ex.id u).length = store.length) ∧
    (findDebtByDebtorName store name = none →
       createTransaction store payload ⟨true⟩ freshId now =
         (some (insertRow store payload freshId now).1,
          store ++ [(insertRow store payload freshId now).1])) ∧
    (createTransaction [] budiPayload ⟨true⟩ "id-1" "t1" = (some budiFirst, [budiFirst]) ∧
     createTransaction [budiFirst] budiPayload ⟨true⟩ "id-2" "t2" =
       (some budiMerged, [budiMerged])) := by
  refine ⟨?_, ?_, by decide, by decide⟩
  · intro ex hfind hnodup
    have hmem : ex ∈ store := List.mem_of_find?_eq_some hfind
    have hid := findById_mem_unique store ex hmem hnodup
    refine ⟨{ ex with
        nominal := ex.nominal + payload.nominal,
        note := payload.note,
        invoice_url := payload.invoice_url,
        invoice_data := payload.invoice_data,
        updated_at := now }, ?_, rfl, rfl, rfl, by simp [updateRow]⟩
    simp [createTransaction, hname, htype, strTruthy, hne, hfind, accumulateDebt, hid]
  · intro hfind
    simp [createTransaction, hname, htype, strTruthy, hne, hfind, insertRow]

/-- Witness for C1: accumulating the Budi payload into a store that
already holds the Budi debt mutates that row in place, returning the
summed amount on the original identity. -/
theorem create_upsert_accumulates_witness :
    ∃ u, createTransaction [budiFirst] budiPayload ⟨true⟩ "id-2" "t2" =
        (some u, updateRow [budiFirst] budiFirst.id u) ∧
      u.id = budiFirst.id ∧ u.created_at = budiFirst.created_at ∧
      u.nominal = budiFirst.nominal + budiPayload.nominal ∧
      (updateRow [budiFirst] budiFirst.id u).length = 1 := by
  have h := (create_upsert_accumulates [budiFirst] budiPayload "id-2" "t2" "Budi"
    rfl rfl (by decide)).1 budiFirst (by decide) (by decide)
  simpa using h

/-- C2: the repay operation fails with NotFound (404) when the entry is
absent and with InvalidState (400) when the found entry is not a debt
or names no debtor — each failure leaving the store untouched — and on
success turns the entry into an earning with the debtor cleared, the
note synthesized as the repayment message, and the amount unchanged. -/
theorem repayDebt_semantics (store : List Transaction) (id now : String) :
    (findById store id = none →
       repayDebt store id now = (.error ⟨"Transaction not found", 404⟩, store)) ∧
    (∀ t, findById store id = some t → t.type ≠ .debts →
       repayDebt store id now = (.error ⟨"Transaction is not a debt", 400⟩, store)) ∧
    (∀ t, findById store id = some t → t.type = .debts →
       strTruthy t.debtor_name = false →
       repayDebt store id now =
         (.error ⟨"Debt transaction has no debtor name", 400⟩, store)) ∧
    (∀ t nm, findById store id = some t → t.type = .debts →
       t.debtor_name = some nm → nm ≠ "" →
       ∃ u, (repayDebt store id now).1 = .ok u ∧ u.type = .earning ∧
         u.debtor_name = none ∧ u.note = some ("Pembayaran Hutang " ++ nm) ∧
         u.nominal = t.nominal ∧ u.id = t.id) := by
  refine ⟨?_, ?_, ?_, ?_⟩
  · intro h
    simp [repayDebt, h]
  · intro t ht htype
    simp [repayDebt, ht, htype]
  · intro t ht htype hdn
    cases hdnm : t.debtor_name with
    | none => simp [repayDebt, ht, htype, hdnm]
    | some nm =>
      have hempty : nm = "" := by simpa [strTruthy, hdnm] using hdn
      subst hempty
      simp [repayDebt, ht, htype, hdnm]
  · intro t nm ht htype hdnm hne
    refine ⟨{ t with
        type := .earning,
        debtor_name := none,
        note := some ("Pembayaran Hutang " ++ nm),
        updated_at := now }, ?_, rfl, rfl, rfl, rfl, rfl⟩
    simp [repayDebt, ht, htype, hdnm, hne]

/-- Witness for C2: on a concrete three-row ledger, a missing id, a
spending row and a debtor-less debt row each fail with the respective
error and leave the ledger untouched, while the open John Doe debt
repays into an earning of the same amount. -/
theorem repayDebt_semantics_witness :
    repayDebt repayStore "missing" "t9" =
      (.error ⟨"Transaction not found", 404⟩, repayStore) ∧
    repayDebt repayStore "sp-1" "t9" =
      (.error ⟨"Transaction is not a debt", 400⟩, repayStore) ∧
    repayDebt repayStore "nn-1" "t9" =
      (.error ⟨"Debt transaction has no debtor name", 400⟩, repayStore) ∧
    ∃ u, (repayDebt repayStore "debt-1" "t9").1 = .ok u ∧ u.type = .earning ∧
      u.debtor_name = none ∧ u.note = some "Pembayaran Hutang John Doe" ∧
      u.nominal = 100000 ∧ u.id = "debt-1" := by
  refine ⟨(repayDebt_semantics repayStore "missing" "t9").1 (by decide),
          (repayDebt_semantics repayStore "sp-1" "t9").2.1 spendRow (by decide) (by decide),
          (repayDebt_semantics repayStore "nn-1" "t9").2.2.1 noNameRow (by decide) rfl
            (by decide),
          ?_⟩
  have h := (repayDebt_semantics repayStore "debt-1" "t9").2.2.2 debtRow "John Doe"
    (by decide) rfl rfl (by decide)
  simpa using h

end JagaWarung
